import Mathlib

/-!
A verification development for the youtube-digest pipeline.

Shallow embedding of the Python services in `app/`:
  * `app/services/youtube_service.py`  — video filter (`is_valid_video`)
  * `app/services/digest_generator.py` — digest composition (grouping,
    priority ordering, cap, statistics)
  * `app/services/transcript_service.py` — transcript resolution and chunking
  * `app/services/summarization_service.py` — retry wrapper around model calls
  * `app/services/email_service.py` — bounded-retry email send
  * `app/tasks.py` — acquisition scan, video pipeline, digest dispatch/marking

Machine integers are modelled as `Nat` (no overflow is relevant anywhere in
this code).  Python `Optional` becomes `Option`, raised exceptions become
`Except`, and the external collaborators (YouTube API, Supadata, Gemini,
SMTP) are passed in as explicit oracle arguments so that the control flow of
each function is a total, executable Lean definition.
-/

namespace YTDigest

-- ===========================================================================
-- Video Filter  (app/services/youtube_service.py)
-- ===========================================================================

/-- Embeds `MIN_VIDEO_DURATION_SECONDS` from `youtube_service.py`. -/
def MIN_VIDEO_DURATION_SECONDS : Nat := 60

/-- A raw video resource from the YouTube API, reduced to the three fields
`is_valid_video` inspects: presence of a `liveStreamingDetails` block, the
`snippet.liveBroadcastContent` indicator (the Python code defaults it to
`"none"` when absent), and the duration decoded by
`parse_iso8601_duration` (which yields `0` on a missing or unparseable
duration string). -/
structure RawVideo where
  hasLiveStreamingDetails : Bool
  liveBroadcastContent : String
  durationSeconds : Nat
deriving DecidableEq, Repr

/-- Embeds `is_valid_video` from `youtube_service.py` (lines 66-104): excludes
livestreams (a `liveStreamingDetails` block present), live/upcoming
broadcasts, and videos shorter than 60 seconds. -/
def is_valid_video (v : RawVideo) : Bool :=
  if v.hasLiveStreamingDetails then
    false
  else if v.liveBroadcastContent = "live" ∨ v.liveBroadcastContent = "upcoming" then
    false
  else if v.durationSeconds < MIN_VIDEO_DURATION_SECONDS then
    false
  else
    true

-- ===========================================================================
-- Stable sorting (Python's `list.sort` / `sorted` are stable; with
-- `reverse=True` CPython reverses, sorts ascending stably, and reverses
-- again, which is exactly a stable sort under the flipped comparison).
-- We embed both as a stable insertion sort parameterised by a boolean
-- "may go before" relation.
-- ===========================================================================

/-- Insert `x` into `l`, placing it before the first element `y` with
`le x y = true`.  With a total transitive `le` this is the insertion step of
a stable insertion sort. -/
def insertLe (le : α → α → Bool) (x : α) : List α → List α
  | [] => [x]
  | y :: ys => if le x y then x :: y :: ys else y :: insertLe le x ys

/-- Stable insertion sort by the boolean relation `le`. -/
def isortLe (le : α → α → Bool) : List α → List α
  | [] => []
  | x :: xs => insertLe le x (isortLe le xs)

-- ===========================================================================
-- Digest Generator  (app/services/digest_generator.py)
-- ===========================================================================

/-- Embeds `CATEGORY_PRIORITY` from `digest_generator.py` (lines 27-36), as a
partial lookup (`dict.get`).  Lower number = higher priority. -/
def CATEGORY_PRIORITY (c : String) : Option Nat :=
  if c = "Claude Code" then some 0
  else if c = "Coding/AI Allgemein" then some 1
  else if c = "Brettspiele" then some 2
  else if c = "Gesundheit" then some 3
  else if c = "Sport" then some 4
  -- NB: the source file literally contains the mojibake key
  -- "Beziehung/SexualitÃ¤t" (bytes C3 83 C2 A4), which differs
  -- from the summarizer's Category value "Beziehung/Sexualität".
  else if c = "Beziehung/SexualitÃ¤t" then some 5
  else if c = "Beachvolleyball" then some 6
  else if c = "Sonstige" then some 99
  else none

/-- Embeds `MAX_VIDEOS_PER_DIGEST` from `digest_generator.py`. -/
def MAX_VIDEOS_PER_DIGEST : Nat := 50

/-- The sort key `CATEGORY_PRIORITY.get(c, 50)` used in
`_group_by_category` (line 212). -/
def categoryPriority (c : String) : Nat :=
  (CATEGORY_PRIORITY c).getD 50

/-- The structured summary stored on a completed video
(`ProcessedVideo.summary` JSON blob), reduced to the fields
`_prepare_video_item` reads. -/
structure SummaryJson where
  core_message : String
  key_takeaways : List String
  action_items : List String
deriving DecidableEq, Repr

/-- Embeds `ProcessedVideo` (app/models.py), reduced to the fields the digest
generator reads.  `summary = none` models a NULL summary column;
`channel_name` stands for `video.channel.channel_name` (already resolved,
`"Unbekannt"` when the channel relation is absent). -/
structure ProcessedVideo where
  video_id : String
  title : String
  channel_name : String
  category : String
  duration_seconds : Nat
  published_at : Nat
  summary : Option SummaryJson
deriving DecidableEq, Repr

/-- Embeds `VideoDigestItem` from `digest_generator.py` (lines 50-64), keeping the
fields the grouping/ordering claims are about. -/
structure VideoDigestItem where
  video_id : String
  title : String
  published_at : Nat
  category : String
  core_message : String
  key_takeaways : List String
  action_items : List String
deriving DecidableEq, Repr

/-- Embeds `DigestResult` from `digest_generator.py` (lines 67-79), without the
rendered HTML/plain-text strings (pure rendering of the grouped data);
`grouped` is the insertion-ordered dict returned by `_group_by_category`
that both renderings iterate over. -/
structure DigestResult where
  video_count : Nat
  total_duration_seconds : Nat
  category_counts : List (String × Nat)
  grouped : List (String × List VideoDigestItem)
  videos : List VideoDigestItem
deriving DecidableEq, Repr

/-- Embeds `_prepare_video_item` (lines 145-183): `none` when the video has no
summary or an empty core message; otherwise the projected display item
(takeaways capped at 10, action items at 5). -/
def prepare_video_item (video : ProcessedVideo) : Option VideoDigestItem :=
  match video.summary with
  | none => none
  | some summary =>
      if summary.core_message = "" then none
      else
        some {
          video_id := video.video_id
          title := video.title
          published_at := video.published_at
          category := video.category
          core_message := summary.core_message
          key_takeaways := summary.key_takeaways.take 10
          action_items := summary.action_items.take 5
        }

/-- Comparison used by `groups[category].sort(key=..., reverse=True)`
(line 207): a stable descending sort by `published_at`. -/
def pubDescLe (a b : VideoDigestItem) : Bool :=
  decide (b.published_at ≤ a.published_at)

/-- Comparison used by `sorted(groups.keys(), key=CATEGORY_PRIORITY.get(c, 50))`
(lines 210-213): a stable ascending sort by effective priority. -/
def catPrioLe (a b : String) : Bool :=
  decide (categoryPriority a ≤ categoryPriority b)

/-- Comparison used by `sorted(videos, key=lambda v: v.published_at,
reverse=True)` in `generate` (line 267). -/
def pvPubDescLe (a b : ProcessedVideo) : Bool :=
  decide (b.published_at ≤ a.published_at)

/-- The insertion order of the `groups` dict built in `_group_by_category`
(lines 198-203): categories in order of first appearance. -/
def categoriesInOrder (videos : List VideoDigestItem) : List String :=
  videos.foldl (fun acc v => if v.category ∈ acc then acc else acc ++ [v.category]) []

/-- Embeds `_group_by_category` (lines 185-215): group display items by category
(dict insertion order = first appearance), sort each group by published
date descending (stable), then emit the groups with keys sorted by
`CATEGORY_PRIORITY.get(c, 50)` (stable). -/
def group_by_category (videos : List VideoDigestItem) :
    List (String × List VideoDigestItem) :=
  (isortLe catPrioLe (categoriesInOrder videos)).map
    (fun c => (c, isortLe pubDescLe (videos.filter (fun v => v.category = c))))

/-- Embeds `_calculate_stats` (lines 217-236): total duration and per-category
counts (dict in order of first appearance) over the given video list. -/
def calculate_stats (videos : List ProcessedVideo) : Nat × List (String × Nat) :=
  ((videos.map (fun v => v.duration_seconds)).sum,
   (videos.foldl
      (fun acc v => if v.category ∈ acc then acc else acc ++ [v.category]) []).map
     (fun c => (c, (videos.filter (fun v => v.category = c)).length)))

/-- Embeds `generate` (lines 238-342), with the Jinja2/plain-text rendering of the
grouped data elided (the returned `DigestResult` carries the grouped data
both renderings are produced from).  Note the Python code rebinds the local
`videos` to the capped list (line 267) before `_calculate_stats(videos)` is
called (line 292). -/
def generate (videos : List ProcessedVideo) : Except String DigestResult :=
  if videos = [] then
    .error "No videos provided for digest"
  else
    -- Limit videos: sort by published date and take newest
    let videos :=
      if MAX_VIDEOS_PER_DIGEST < videos.length then
        (isortLe pvPubDescLe videos).take MAX_VIDEOS_PER_DIGEST
      else videos
    let video_items := videos.filterMap prepare_video_item
    if video_items = [] then
      .error "No videos with valid summaries found"
    else
      let grouped_videos := group_by_category video_items
      let stats := calculate_stats videos
      .ok {
        video_count := video_items.length
        total_duration_seconds := stats.1
        category_counts := stats.2
        grouped := grouped_videos
        videos := video_items
      }

/-- Projection: the `total_duration_seconds` of a successful generation. -/
def digestTotalDuration : Except String DigestResult → Option Nat
  | .ok r => some r.total_duration_seconds
  | .error _ => none

-- ===========================================================================
-- Acquisition scan  (app/tasks.py)
-- ===========================================================================

/-- The enrichment record produced by
`YouTubeService.get_video_details` (youtube_service.py lines 381-442),
reduced to the fields the scan code reads: `duration_seconds` (decoded,
missing entries give the default `0` of `vdetails.get(..., 0)`),
whether a `liveStreamingDetails` block is present, and the
`live_broadcast_content` indicator (which the scan code never reads). -/
structure VideoDetails where
  duration_seconds : Nat
  hasLiveStreamingDetails : Bool
  liveBroadcastContent : String
deriving DecidableEq, Repr

/-- View an enrichment record as the raw resource `is_valid_video`
inspects (the `_raw` item carries the same three fields). -/
def detailsToRaw (d : VideoDetails) : RawVideo :=
  ⟨d.hasLiveStreamingDetails, d.liveBroadcastContent, d.duration_seconds⟩

/-- A candidate video returned by `get_channel_videos`, reduced to the
fields the scan's row creation uses. -/
structure SyncCandidate where
  video_id : String
  title : String
  published_at : Nat
deriving DecidableEq, Repr

/-- A `ProcessedVideo` row (app/models.py), reduced to the columns the task
layer reads and writes.  `category` is nullable until completion;
`included_in_digest_id` is the digest back-reference. -/
structure VideoRow where
  video_id : String
  title : String
  channel_name : String
  category : Option String
  duration_seconds : Nat
  published_at : Nat
  transcript : Option String
  transcript_source : Option String
  summary : Option SummaryJson
  processing_status : String
  error_message : Option String
  retry_count : Nat
  included_in_digest_id : Option Nat
deriving DecidableEq, Repr

/-- The `ProcessedVideo(...)` row created by the scan passes
(tasks.py lines 350-360 / 88-98): `pending`, no back-reference. -/
def mkPendingRow (c : SyncCandidate) (d : VideoDetails) : VideoRow :=
  { video_id := c.video_id
    title := c.title
    channel_name := ""
    category := none
    duration_seconds := d.duration_seconds
    published_at := c.published_at
    transcript := none
    transcript_source := none
    summary := none
    processing_status := "pending"
    error_message := none
    retry_count := 0
    included_in_digest_id := none }

/-- The per-channel video loop of `_sync_channels_and_fetch_videos`
(tasks.py lines 314-362): for each candidate (paired with its enrichment
record from `get_video_details`), skip empty ids, skip ids already in the
database, skip `duration < 120`, skip a present `liveStreamingDetails`
block, and create a `pending` row otherwise.  The known-id set is threaded
because a created row is visible to the later duplicate checks of the same
pass (SQLAlchemy autoflush).  `sync_channel_metadata` (lines 770-820)
performs the identical per-video admission. -/
def sync_fetch_new_videos (known : List String) :
    List (SyncCandidate × VideoDetails) → List VideoRow
  | [] => []
  | (c, d) :: rest =>
      if c.video_id = "" then sync_fetch_new_videos known rest
      else if c.video_id ∈ known then sync_fetch_new_videos known rest
      else if d.duration_seconds < 120 then sync_fetch_new_videos known rest
      else if d.hasLiveStreamingDetails then sync_fetch_new_videos known rest
      else mkPendingRow c d :: sync_fetch_new_videos (c.video_id :: known) rest

/-- The per-channel video loop of `check_for_new_videos`
(tasks.py lines 76-105): no detail enrichment and no filtering at all —
every candidate id not already in the database becomes a `pending` row
(with `duration_seconds` defaulting to 0, the candidate dict from
`get_channel_videos` carrying no duration). -/
def check_for_new_videos_rows (known : List String) :
    List SyncCandidate → List VideoRow
  | [] => []
  | c :: rest =>
      if c.video_id ∈ known then check_for_new_videos_rows known rest
      else mkPendingRow c ⟨0, false, "none"⟩ ::
             check_for_new_videos_rows (c.video_id :: known) rest

-- ===========================================================================
-- Video pipeline  (app/tasks.py, process_video)
-- ===========================================================================

/-- Embeds `db.query(ProcessedVideo).filter(video_id == vid).first()`. -/
def findVideo (db : List VideoRow) (vid : String) : Option VideoRow :=
  db.find? (fun r => r.video_id = vid)

/-- Update the (unique) row with the given id.  `video_id` has a UNIQUE
constraint in `models.py`, so mapping by id models mutating the single
matching ORM object. -/
def updateVideo (db : List VideoRow) (vid : String) (f : VideoRow → VideoRow) :
    List VideoRow :=
  db.map (fun r => if r.video_id = vid then f r else r)

/-- The outcome dict returned by `process_video`. -/
inductive ProcessOutcome where
  | errorNotFound
  | skipped
  | completed (category : String)
  | failed (err : String)
deriving DecidableEq, Repr

/-- Embeds `process_video` (tasks.py lines 147-230), with the transcript fetch and
the summarization passed in as oracles (`Except` mirrors raised/returned):
if the row is already `completed` return "skipped" before any external
call; otherwise commit `processing`, fetch the transcript, summarize,
and either persist the summary as `completed` or record the failure
(`failed`, error message, retry count).  On a summarization failure the
already-assigned transcript fields are part of the same committed session,
matching the Python `except` branch's `db.commit()`. -/
def process_video (db : List VideoRow) (vid : String)
    (transcriptO : Except String (String × String))
    (summaryO : Except String (String × SummaryJson)) :
    ProcessOutcome × List VideoRow :=
  match findVideo db vid with
  | none => (.errorNotFound, db)
  | some video =>
      if video.processing_status = "completed" then
        (.skipped, db)
      else
        let db1 := updateVideo db vid (fun r => { r with processing_status := "processing" })
        match transcriptO with
        | .error e =>
            (.failed e,
             updateVideo db1 vid (fun r =>
               { r with processing_status := "failed", error_message := some e,
                        retry_count := r.retry_count + 1 }))
        | .ok (text, src) =>
            let db2 := updateVideo db1 vid (fun r =>
              { r with transcript := some text, transcript_source := some src })
            match summaryO with
            | .error e =>
                (.failed e,
                 updateVideo db2 vid (fun r =>
                   { r with processing_status := "failed", error_message := some e,
                            retry_count := r.retry_count + 1 }))
            | .ok (cat, summ) =>
                (.completed cat,
                 updateVideo db2 vid (fun r =>
                   { r with category := some cat, summary := some summ,
                            processing_status := "completed", error_message := none }))

-- ===========================================================================
-- Email send  (app/services/email_service.py)
-- ===========================================================================

/-- Embeds `MAX_RETRIES` from `email_service.py`. -/
def EMAIL_MAX_RETRIES : Nat := 3

/-- Embeds `RETRY_DELAYS` from `email_service.py`. -/
def EMAIL_RETRY_DELAYS : List Nat := [2, 5, 10]

/-- Embeds `EmailResult` from `email_service.py` (lines 41-47). -/
structure EmailResult where
  success : Bool
  message : String
  attempts : Nat
deriving DecidableEq, Repr

/-- One SMTP attempt's outcome, as distinguished by the `except` clauses of
`_send_with_retry` (lines 158-185): success, a non-retried authentication
error, a non-retried recipients-refused error, or a retried transport
error (SMTPException / OSError / TimeoutError), each carrying its rendered
message. -/
inductive SmtpOutcome where
  | ok
  | authError (msg : String)
  | recipientsRefused (msg : String)
  | transient (msg : String)

/-- The `for attempt in range(MAX_RETRIES)` loop of `_send_with_retry`,
with `remaining = MAX_RETRIES - attempt` as structural fuel.  Returns the
`EmailResult` and the list of `time.sleep` delays taken. -/
def sendRetryGo (call : Nat → SmtpOutcome) :
    Nat → Nat → Option String → List Nat → EmailResult × List Nat
  | 0, _, lastErr, delays =>
      ({ success := false
         message := "Failed to send email after 3 attempts: " ++ lastErr.getD "None"
         attempts := EMAIL_MAX_RETRIES }, delays)
  | remaining + 1, attempt, _, delays =>
      match call attempt with
      | .ok =>
          ({ success := true, message := "Email sent successfully",
             attempts := attempt + 1 }, delays)
      | .authError m =>
          ({ success := false, message := "Authentication failed: " ++ m,
             attempts := attempt + 1 }, delays)
      | .recipientsRefused m =>
          ({ success := false, message := "Recipient refused: " ++ m,
             attempts := attempt + 1 }, delays)
      | .transient m =>
          if attempt < EMAIL_MAX_RETRIES - 1 then
            sendRetryGo call remaining (attempt + 1) (some m)
              (delays ++ [EMAIL_RETRY_DELAYS.getD attempt 0])
          else
            sendRetryGo call remaining (attempt + 1) (some m) delays
      termination_by fuel _ _ _ => fuel

/-- Embeds `_send_with_retry` (email_service.py lines 116-194). -/
def send_with_retry (call : Nat → SmtpOutcome) : EmailResult × List Nat :=
  sendRetryGo call EMAIL_MAX_RETRIES 0 none []

-- ===========================================================================
-- Digest dispatch & marking  (app/tasks.py, generate_and_send_digest)
-- ===========================================================================

/-- Embeds `DigestHistory` (app/models.py), reduced to the columns the dispatch
claims are about. -/
structure DigestRow where
  id : Nat
  email_status : String
  email_error : Option String
deriving DecidableEq, Repr

/-- The shared mutable state of the task layer: the `ProcessedVideo` table
and the `DigestHistory` table. -/
structure SysState where
  videos : List VideoRow
  digests : List DigestRow

/-- Descending published-date order used by the selection query
(`order_by(published_at.desc())`, tasks.py line 538). -/
def vrPubDescLe (a b : VideoRow) : Bool :=
  decide (b.published_at ≤ a.published_at)

/-- The selection query of `generate_and_send_digest` (tasks.py lines
531-538): completed videos with no digest back-reference, newest first. -/
def eligibleVideos (s : SysState) : List VideoRow :=
  isortLe vrPubDescLe
    (s.videos.filter (fun r =>
      r.processing_status = "completed" && r.included_in_digest_id = none))

/-- The view of a `ProcessedVideo` ORM row handed to
`DigestGenerator.generate` (category of a completed row is set by the
pipeline; a NULL category is projected to `""`, unused by the claims). -/
def rowToProcessed (r : VideoRow) : ProcessedVideo :=
  ⟨r.video_id, r.title, r.channel_name, r.category.getD "",
   r.duration_seconds, r.published_at, r.summary⟩

/-- Result of one `generate_and_send_digest` run. -/
inductive DigestOutcome where
  | skippedEmpty
  | generationFailed (err : String)
  | sent (digestId : Nat)
  | failedSend (msg : String)
deriving DecidableEq, Repr

/-- The composition/dispatch/marking transaction of
`generate_and_send_digest` (tasks.py lines 531-659), with the SMTP
attempts as an oracle.  If the selection is empty: skip.  If digest
generation raises: nothing is committed.  Otherwise a `DigestHistory` row
is created (its autoincrement id modelled as the table length); on email
success it is committed as `sent` and the first 50 selected videos get
their back-reference set (`for video in videos[:50]`); on failure it is
committed as `failed` with the error and no video is touched.  The mark
update fires exactly on the selected rows: `video_id` is UNIQUE, so the
row with a selected id is the completed, unreferenced row the query
returned. -/
def generate_and_send_digest (s : SysState) (call : Nat → SmtpOutcome) :
    DigestOutcome × SysState :=
  let eligible := eligibleVideos s
  if eligible = [] then
    (.skippedEmpty, s)
  else
    match generate (eligible.map rowToProcessed) with
    | .error e => (.generationFailed e, s)
    | .ok _ =>
        let did := s.digests.length
        let er := (send_with_retry call).1
        if er.success then
          let markedIds := (eligible.take MAX_VIDEOS_PER_DIGEST).map (fun r => r.video_id)
          (.sent did,
           { videos := s.videos.map (fun r =>
               if r.processing_status = "completed" ∧ r.included_in_digest_id = none ∧
                  r.video_id ∈ markedIds then
                 { r with included_in_digest_id := some did }
               else r)
             digests := s.digests ++ [⟨did, "sent", none⟩] })
        else
          (.failedSend er.message,
           { s with digests := s.digests ++ [⟨did, "failed", some er.message⟩] })

/-- The operations that touch the shared state: the scanner registering a
new row (always `pending`, back-reference unset), the video pipeline, and
a digest generation pass. -/
inductive Op where
  | addVideo (c : SyncCandidate) (d : VideoDetails)
  | processVideo (vid : String)
      (transcriptO : Except String (String × String))
      (summaryO : Except String (String × SummaryJson))
  | digestPass (call : Nat → SmtpOutcome)

/-- Apply one operation to the state. -/
def applyOp (s : SysState) : Op → SysState
  | .addVideo c d => { s with videos := s.videos ++ [mkPendingRow c d] }
  | .processVideo vid t so => { s with videos := (process_video s.videos vid t so).2 }
  | .digestPass call => (generate_and_send_digest s call).2

/-- Apply a sequence of operations. -/
def applyOps (s : SysState) (ops : List Op) : SysState :=
  ops.foldl applyOp s

-- ===========================================================================
-- Transcript resolver  (app/services/transcript_service.py)
-- ===========================================================================

/-- Embeds `TranscriptResult` (transcript_service.py lines 51-67), sans segments
(irrelevant to the error-contract claims; text formatting keeps segment
texts only). -/
structure TranscriptResultM where
  video_id : String
  text : String
  language : String
  source : String
deriving DecidableEq, Repr

/-- The two error classes the resolver can raise (lines 41-48). -/
inductive TranscriptError where
  | transcriptNotAvailable (msg : String)
  | supadataError (msg : String)
deriving DecidableEq, Repr

/-- Embeds `format_transcript_plain` (lines 105-119) on segment texts. -/
def format_transcript_plain (segments : List String) : String :=
  String.intercalate " "
    ((segments.map (fun t => t.trim)).filter (fun t => ¬ t = ""))

/-- The Supadata HTTP response, as distinguished by
`get_transcript_supadata` (lines 261-326): 404, 429, a text-mode body, a
content-mode body (possibly empty), some other HTTP status error raised by
`raise_for_status`, a transport error, or any other exception (JSON
decode, ...). -/
inductive SupaResponse where
  | status404
  | status429
  | okText (text lang : String)
  | okContent (segments : List String) (lang : String)
  | httpStatusError (code : Nat)
  | requestError (msg : String)
  | otherError (msg : String)

/-- Embeds `get_transcript_supadata` (lines 261-326): `Ok none` models a `return
None` (unconfigured key, 404, empty content, or a swallowed generic
exception); `error` models a raised `SupadataError` (429 rate limit, other
HTTP status, transport error). -/
def get_transcript_supadata (keyConfigured : Bool) (resp : SupaResponse)
    (vid : String) : Except TranscriptError (Option TranscriptResultM) :=
  if ¬ keyConfigured then .ok none
  else
    match resp with
    | .status404 => .ok none
    | .status429 => .error (.supadataError "Rate limit exceeded")
    | .okText text lang => .ok (some ⟨vid, text, lang, "supadata"⟩)
    | .okContent segments lang =>
        if segments = [] then .ok none
        else .ok (some ⟨vid, format_transcript_plain segments, lang, "supadata"⟩)
    | .httpStatusError code =>
        .error (.supadataError ("HTTP error: " ++ toString code))
    | .requestError m => .error (.supadataError ("Request error: " ++ m))
    | .otherError _ => .ok none

/-- Embeds `get_transcript` (lines 328-381) with `include_timestamps=False` (the
default; the timestamp re-formatting does not affect the error contract):
the primary YouTube lookup `get_transcript_youtube` never raises — it
returns `Option` (every failure path inside it returns `None`), passed
here as the oracle `ytResult`; 'the fallback is queried only when the
primary yields nothing and `use_fallback` is set; `TranscriptNotAvailable`
is raised when nothing was obtained, while a `SupadataError` raised by the
fallback propagates. -/
def get_transcript (vid : String) (ytResult : Option TranscriptResultM)
    (keyConfigured : Bool) (resp : SupaResponse) (use_fallback : Bool) :
    Except TranscriptError TranscriptResultM :=
  match ytResult with
  | some r => .ok r
  | none =>
      if use_fallback then
        match get_transcript_supadata keyConfigured resp vid with
        | .ok (some r) => .ok r
        | .ok none =>
            .error (.transcriptNotAvailable
              ("No transcript available for video " ++ vid))
        | .error e => .error e
      else
        .error (.transcriptNotAvailable
          ("No transcript available for video " ++ vid))

-- ===========================================================================
-- Summarizer retry  (app/services/summarization_service.py)
-- ===========================================================================

/-- Embeds `MAX_RETRIES` from `summarization_service.py` (line 33). -/
def MAX_RETRIES : Nat := 3

/-- Embeds `RETRY_DELAYS` from `summarization_service.py` (line 34). -/
def RETRY_DELAYS : List Nat := [1, 2, 4]

/-- Embeds `SummarizationError` (lines 94-100): message plus the `retry_later`
flag. -/
structure SummarizationErrorM where
  message : String
  retry_later : Bool
deriving DecidableEq, Repr

/-- The `for attempt in range(MAX_RETRIES)` loop of
`_call_gemini_with_retry` (lines 223-281), with `remaining = MAX_RETRIES -
attempt` as structural fuel.  `call attempt` is the oracle for the
attempt's model call including response parsing (`Except.error` models any
raised exception, all caught by the loop's `except`).  Returns the result,
the number of calls made, and the `time.sleep` delays taken. -/
def geminiRetryGo (call : Nat → Except String α) :
    Nat → Nat → Nat → List Nat → Option String →
    Except SummarizationErrorM α × Nat × List Nat
  | 0, _, calls, delays, lastErr =>
      (.error ⟨"Gemini API failed after 3 attempts: " ++ lastErr.getD "None", true⟩,
       calls, delays)
  | remaining + 1, attempt, calls, delays, _ =>
      match call attempt with
      | .ok a => (.ok a, calls + 1, delays)
      | .error e =>
          if attempt < MAX_RETRIES - 1 then
            geminiRetryGo call remaining (attempt + 1) (calls + 1)
              (delays ++ [RETRY_DELAYS.getD attempt 0]) (some e)
          else
            geminiRetryGo call remaining (attempt + 1) (calls + 1) delays (some e)

/-- Embeds `_call_gemini_with_retry` (lines 223-281). -/
def call_gemini_with_retry (call : Nat → Except String α) :
    Except SummarizationErrorM α × Nat × List Nat :=
  geminiRetryGo call MAX_RETRIES 0 0 [] none

-- ===========================================================================
-- Transcript chunking  (transcript_service.py chunk_transcript /
-- summarization_service.py _chunk_transcript)
-- ===========================================================================

/-- Embeds `MAX_TRANSCRIPT_LENGTH` from `transcript_service.py` (line 30). -/
def MAX_TRANSCRIPT_LENGTH : Nat := 100000

/-- Embeds `MAX_TRANSCRIPT_CHARS` from `summarization_service.py` (line 28). -/
def MAX_TRANSCRIPT_CHARS : Nat := 500000

/-- Embeds `CHUNK_SIZE` from `summarization_service.py` (line 29). -/
def CHUNK_SIZE : Nat := 400000

/-- Embeds `CHUNK_OVERLAP` from `summarization_service.py` (line 30). -/
def CHUNK_OVERLAP : Nat := 500

/-- Python `str.strip()`: drop whitespace from both ends.  Transcripts are
modelled as `List Char`. -/
def pyStrip (s : List Char) : List Char :=
  ((s.dropWhile Char.isWhitespace).reverse.dropWhile Char.isWhitespace).reverse

/-- Python slicing `s[a:b]` for `0 ≤ a ≤ b`. -/
def sliceList (s : List Char) (a b : Nat) : List Char :=
  (s.drop a).take (b - a)

/-- Python `s.rfind(sub, lo, hi)`: the largest index `i` with `lo ≤ i`,
`i + len(sub) ≤ hi` and `sub` occurring in `s` at `i`; `none` for Python's
`-1`. -/
def rfindSub (s sub : List Char) (lo hi : Nat) : Option Nat :=
  ((List.range hi).filter (fun i =>
    decide (lo ≤ i) && decide (i + sub.length ≤ hi) &&
      sub.isPrefixOf (s.drop i))).max?

/-- The end index computed by one iteration of the chunking loop
(`transcript_service.py` lines 408-419 = `summarization_service.py` lines
299-309): `end = start + max_length`, shrunk to just past a `". "`
sentence boundary when one occurs in the last 20% of the window.  Python's
`int(max_length * 0.8)` is modelled as `max_length * 4 / 5`; the two
coincide for the chunk sizes in this repository (80000 and 320000). -/
def chunkEnd (t : List Char) (maxLength start : Nat) : Nat :=
  let end0 := start + maxLength
  if end0 < t.length then
    let searchStart := start + maxLength * 4 / 5
    match rfindSub t ['.', ' '] searchStart end0 with
    | some sentenceEnd =>
        if searchStart < sentenceEnd then sentenceEnd + 1 else end0
    | none => end0
  else end0

/-- The `while start < len(transcript)` loop of `chunk_transcript`, as a
fuel-indexed function (the Python loop need not terminate for degenerate
`overlap ≥ max_length`; `none` models running out of fuel).  Each
iteration appends `transcript[start:end].strip()` and continues at
`end - overlap`. -/
def chunkGo (t : List Char) (maxLength overlap : Nat) :
    Nat → Nat → Option (List (List Char))
  | 0, _ => none
  | fuel + 1, start =>
      if start < t.length then
        match chunkGo t maxLength overlap fuel (chunkEnd t maxLength start - overlap) with
        | some rest => some (pyStrip (sliceList t start (chunkEnd t maxLength start)) :: rest)
        | none => none
      else some []

/-- Embeds `TranscriptService.chunk_transcript` (transcript_service.py lines
383-427), run with fuel `len(transcript) + 1` (enough whenever the loop
makes strict progress). -/
def chunk_transcript (t : List Char) (max_length overlap : Nat) :
    Option (List (List Char)) :=
  if t.length ≤ max_length then some [t]
  else chunkGo t max_length overlap (t.length + 1) 0

/-- Embeds `SummarizationService._chunk_transcript` (summarization_service.py
lines 283-318): threshold `MAX_TRANSCRIPT_CHARS`, chunk size `CHUNK_SIZE`,
overlap `CHUNK_OVERLAP`. -/
def summarization_chunk_transcript (t : List Char) : Option (List (List Char)) :=
  if t.length ≤ MAX_TRANSCRIPT_CHARS then some [t]
  else chunkGo t CHUNK_SIZE CHUNK_OVERLAP (t.length + 1) 0

/-- Positional row preservation across a table change: no row is lost, every
row keeps its `video_id`, and a digest back-reference that is set stays
set with the same value. -/
def PreservesRows (db db2 : List VideoRow) : Prop :=
  ∃ hlen : db.length ≤ db2.length,
    ∀ (i : Nat) (h : i < db.length),
      (db2.get ⟨i, by omega⟩).video_id = (db.get ⟨i, h⟩).video_id ∧
      ∀ d, (db.get ⟨i, h⟩).included_in_digest_id = some d →
        (db2.get ⟨i, by omega⟩).included_in_digest_id = some d

-- ===========================================================================
-- Concrete inputs used by counterexamples and witnesses
-- ===========================================================================

/-- A display item in a category absent from `CATEGORY_PRIORITY`. -/
def itemZulu : VideoDigestItem :=
  ⟨"vZ", "Z", 10, "Zulu", "m", [], []⟩

/-- A display item in the listed catch-all category (priority 99). -/
def itemSonstige : VideoDigestItem :=
  ⟨"vS", "S", 10, "Sonstige", "m", [], []⟩

/-- A second display item in an unlisted category, alphabetically before
`"Zulu"`. -/
def itemAlpha : VideoDigestItem :=
  ⟨"vA", "A", 10, "Alpha", "m", [], []⟩

/-- A completed video with a valid summary, duration 10s, published at
`i`. -/
def mkPV (i : Nat) : ProcessedVideo :=
  ⟨"", "", "", "Sonstige", 10, i, some ⟨"m", [], []⟩⟩

/-- A list of 51 completed videos (one more than the digest cap). -/
def vs51 : List ProcessedVideo :=
  (List.range 51).map mkPV

/-- A 90-second regular video: accepted by `is_valid_video`, rejected by
the scan's inline 120-second cutoff. -/
def cand90 : SyncCandidate := ⟨"v90", "t90", 0⟩

/-- Enrichment record of `cand90`. -/
def det90 : VideoDetails := ⟨90, false, "none"⟩

/-- A 300-second upcoming premiere: rejected by `is_valid_video`, accepted
by the scan (which never reads the broadcast indicator). -/
def candUp : SyncCandidate := ⟨"vUp", "tUp", 0⟩

/-- Enrichment record of `candUp`. -/
def detUp : VideoDetails := ⟨300, false, "upcoming"⟩

/-- A completed, undigested row with a valid summary. -/
def rowDone : VideoRow :=
  { video_id := "vd", title := "T", channel_name := "C", category := some "Sonstige"
    duration_seconds := 100, published_at := 5, transcript := some "tx"
    transcript_source := some "youtube", summary := some ⟨"m", [], []⟩
    processing_status := "completed", error_message := none, retry_count := 0
    included_in_digest_id := none }

/-- A row already marked into digest 0. -/
def rowMarked : VideoRow :=
  { rowDone with video_id := "vm", included_in_digest_id := some 0 }

/-- A state with one digested and one undigested completed video. -/
def sysExample : SysState :=
  { videos := [rowMarked, rowDone], digests := [⟨0, "sent", none⟩] }

/-- A state with a single eligible completed video and no digests. -/
def sysOne : SysState :=
  { videos := [rowDone], digests := [] }

-- ===========================================================================
-- THEOREMS
-- ===========================================================================

-- --- Stable insertion sort: membership and sortedness --------------------

theorem mem_insertLe (le : α → α → Bool) (x : α) (l : List α) (a : α) :
    a ∈ insertLe le x l ↔ a = x ∨ a ∈ l := by
  induction l with
  | nil => simp [insertLe]
  | cons y ys ih =>
      by_cases h : le x y = true
      · simp [insertLe, h]
      · simp only [insertLe, h, if_neg, Bool.not_eq_true] at *
        simp [List.mem_cons, ih]
        tauto

theorem mem_isortLe (le : α → α → Bool) (l : List α) (a : α) :
    a ∈ isortLe le l ↔ a ∈ l := by
  induction l with
  | nil => simp [isortLe]
  | cons x xs ih => simp [isortLe, mem_insertLe, ih]

theorem pairwise_insertLe (le : α → α → Bool)
    (htot : ∀ a b, le a b = false → le b a = true)
    (htrans : ∀ a b c, le a b = true → le b c = true → le a c = true)
    (x : α) (l : List α) (hl : l.Pairwise (fun a b => le a b = true)) :
    (insertLe le x l).Pairwise (fun a b => le a b = true) := by
  induction l with
  | nil => simp [insertLe]
  | cons y ys ih =>
      rcases List.pairwise_cons.mp hl with ⟨hy, hys⟩
      by_cases h : le x y = true
      · simp only [insertLe, h, if_true]
        refine List.pairwise_cons.mpr ⟨?_, hl⟩
        intro z hz
        rcases List.mem_cons.mp hz with rfl | hz'
        · exact h
        · exact htrans x y z h (hy z hz')
      · have hxy : le x y = false := by
          cases hxy : le x y
          · rfl
          · exact absurd hxy h
        simp only [insertLe, hxy]
        simp only [Bool.false_eq_true, if_false]
        refine List.pairwise_cons.mpr ⟨?_, ih hys⟩
        intro z hz
        rcases (mem_insertLe le x ys z).mp hz with hzx | hz'
        · rw [hzx]
          exact htot x y hxy
        · exact hy z hz'

theorem pairwise_isortLe (le : α → α → Bool)
    (htot : ∀ a b, le a b = false → le b a = true)
    (htrans : ∀ a b c, le a b = true → le b c = true → le a c = true)
    (l : List α) :
    (isortLe le l).Pairwise (fun a b => le a b = true) := by
  induction l with
  | nil => simp [isortLe]
  | cons x xs ih => exact pairwise_insertLe le htot htrans x (isortLe le xs) ih

theorem length_insertLe (le : α → α → Bool) (x : α) (l : List α) :
    (insertLe le x l).length = l.length + 1 := by
  induction l with
  | nil => rfl
  | cons y ys ih =>
      by_cases h : le x y = true
      · simp [insertLe, h]
      · simp [insertLe, h, ih]

theorem length_isortLe (le : α → α → Bool) (l : List α) :
    (isortLe le l).length = l.length := by
  induction l with
  | nil => rfl
  | cons x xs ih => simp [isortLe, length_insertLe, ih]

-- --- C9: Video Filter ----------------------------------------------------

/-- C9: `is_valid_video` is a pure function of (live-session-details
presence, live-broadcast indicator, decoded duration) returning `false`
exactly when a `liveStreamingDetails` block is present, or the indicator
is `"live"` or `"upcoming"`, or the decoded duration is strictly less than
60 seconds; a non-live video of exactly 60 seconds is eligible and one of
59 seconds is not. -/
theorem filter_determinism :
    (∀ v : RawVideo,
       is_valid_video v = false ↔
         (v.hasLiveStreamingDetails = true ∨ v.liveBroadcastContent = "live" ∨
          v.liveBroadcastContent = "upcoming" ∨ v.durationSeconds < 60)) ∧
    is_valid_video ⟨false, "none", 60⟩ = true ∧
    is_valid_video ⟨false, "none", 59⟩ = false := by
  refine ⟨?_, by decide, by decide⟩
  rintro ⟨lsd, lbc, dur⟩
  cases lsd <;>
    by_cases h1 : lbc = "live" ∨ lbc = "upcoming" <;>
      by_cases h2 : dur < 60 <;>
        simp_all [is_valid_video, MIN_VIDEO_DURATION_SECONDS] <;> tauto

/-- Instance of `filter_determinism`: a video with a live-session-details
block is excluded. -/
theorem filter_determinism_witness :
    is_valid_video ⟨true, "none", 600⟩ = false :=
  (filter_determinism.1 ⟨true, "none", 600⟩).mpr (Or.inl rfl)

-- --- C2: category ordering in the composed digest ------------------------

theorem keys_group_by_category (videos : List VideoDigestItem) :
    (group_by_category videos).map Prod.fst =
      isortLe catPrioLe (categoriesInOrder videos) := by
  simp [group_by_category, List.map_map, Function.comp_def]

theorem catPrioLe_total (a b : String) :
    catPrioLe a b = false → catPrioLe b a = true := by
  simp only [catPrioLe, decide_eq_false_iff_not, decide_eq_true_eq, not_le]
  omega

theorem catPrioLe_trans (a b c : String) :
    catPrioLe a b = true → catPrioLe b c = true → catPrioLe a c = true := by
  simp only [catPrioLe, decide_eq_true_eq]
  omega

theorem pubDescLe_total (a b : VideoDigestItem) :
    pubDescLe a b = false → pubDescLe b a = true := by
  simp only [pubDescLe, decide_eq_false_iff_not, decide_eq_true_eq, not_le]
  omega

theorem pubDescLe_trans (a b c : VideoDigestItem) :
    pubDescLe a b = true → pubDescLe b c = true → pubDescLe a c = true := by
  simp only [pubDescLe, decide_eq_true_eq]
  omega

theorem mem_foldl_dedup (cat : β → String) (items : List β)
    (acc : List String) (c : String) :
    (c ∈ items.foldl
        (fun acc v => if cat v ∈ acc then acc else acc ++ [cat v]) acc) ↔
      c ∈ acc ∨ c ∈ items.map cat := by
  induction items generalizing acc with
  | nil => simp
  | cons x xs ih =>
      simp only [List.foldl_cons, List.map_cons, List.mem_cons, ih]
      by_cases h : cat x ∈ acc
      · have hcx : c = cat x → c ∈ acc := fun hc => hc ▸ h
        simp only [h, if_true]
        tauto
      · simp only [h, if_false, List.mem_append, List.mem_singleton]
        tauto

theorem mem_categoriesInOrder (videos : List VideoDigestItem) (c : String) :
    c ∈ categoriesInOrder videos ↔ c ∈ videos.map (fun v => v.category) := by
  simpa using mem_foldl_dedup (fun v => v.category) videos [] c

theorem sublist_insertLe (le : α → α → Bool) (x : α) (l : List α) :
    l.Sublist (insertLe le x l) := by
  induction l with
  | nil => simp [insertLe]
  | cons y ys ih =>
      by_cases h : le x y = true
      · simp only [insertLe, h, if_true]
        exact List.Sublist.cons x (List.Sublist.refl _)
      · simp only [insertLe, h, if_false]
        exact List.Sublist.cons₂ y ih

theorem sublist_pair_insertLe (le : α → α → Bool) (a b : α)
    (hab : le a b = true) :
    ∀ m : List α, b ∈ m → [a, b].Sublist (insertLe le a m) := by
  intro m
  induction m with
  | nil => intro hb; simp at hb
  | cons y ys ih =>
      intro hb
      by_cases h : le a y = true
      · simp only [insertLe, h, if_true]
        exact List.Sublist.cons₂ a (List.singleton_sublist.mpr hb)
      · simp only [insertLe, h, if_false]
        rcases List.mem_cons.mp hb with rfl | hb'
        · exact absurd hab h
        · exact List.Sublist.cons y (ih hb')

theorem sublist_isortLe (le : α → α → Bool) (a b : α) (hab : le a b = true) :
    ∀ l : List α, [a, b].Sublist l → [a, b].Sublist (isortLe le l) := by
  intro l
  induction l with
  | nil => intro h; simp at h
  | cons x xs ih =>
      intro h
      cases h with
      | cons _ h2 =>
          exact List.Sublist.trans (ih h2) (sublist_insertLe le x (isortLe le xs))
      | cons₂ _ h2 =>
          have hb : b ∈ isortLe le xs :=
            (mem_isortLe le xs b).mpr (List.singleton_sublist.mp h2)
          exact sublist_pair_insertLe le a b hab (isortLe le xs) hb

/-- C2 counterexample: in `group_by_category`, a category absent from
`CATEGORY_PRIORITY` receives the default sort key 50 and is therefore
placed *before* the listed category `"Sonstige"` (priority 99), refuting
"unlisted categories are placed after all listed categories"; and two
unlisted categories keep their first-appearance order (`"Zulu"` before
`"Alpha"`), refuting the alphabetical fallback order. -/
theorem category_order_counterexample :
    CATEGORY_PRIORITY "Sonstige" = some 99 ∧
    CATEGORY_PRIORITY "Zulu" = none ∧
    CATEGORY_PRIORITY "Alpha" = none ∧
    (group_by_category [itemZulu, itemSonstige]).map Prod.fst =
      ["Zulu", "Sonstige"] ∧
    (group_by_category [itemZulu, itemAlpha]).map Prod.fst =
      ["Zulu", "Alpha"] := by
  refine ⟨rfl, rfl, rfl, ?_, ?_⟩ <;> rfl

/-- C2 (amended): `group_by_category` orders the category groups by the
priority table with unlisted categories given the *default key 50* — so
they come after every listed category of priority below 50 but *before*
`"Sonstige"` (99) — with ties (in particular all unlisted categories)
kept in order of first appearance in the input, not alphabetically; the
group keys are exactly the input's categories; and within each group the
items are in non-increasing order of published time (newest first).
The fourth conjunct is the tie-order clause: two categories of equal
effective priority that occur in first-appearance order `a` before `b`
in the input (`categoriesInOrder` is the first-appearance list) come out
in that same order `a` before `b` among the group keys — whatever their
alphabetical relation. -/
theorem category_order_amended (items : List VideoDigestItem) :
    (((group_by_category items).map Prod.fst).Pairwise
        (fun a b => categoryPriority a ≤ categoryPriority b)) ∧
    (∀ c, c ∈ (group_by_category items).map Prod.fst ↔
        c ∈ items.map (fun v => v.category)) ∧
    (∀ p ∈ group_by_category items,
        p.2.Pairwise (fun a b => b.published_at ≤ a.published_at)) ∧
    (∀ a b, categoryPriority a = categoryPriority b →
        [a, b].Sublist (categoriesInOrder items) →
        [a, b].Sublist ((group_by_category items).map Prod.fst)) := by
  refine ⟨?_, ?_, ?_, ?_⟩
  · rw [keys_group_by_category]
    have := pairwise_isortLe catPrioLe catPrioLe_total catPrioLe_trans
      (categoriesInOrder items)
    exact this.imp (fun h => by simpa [catPrioLe] using h)
  · intro c
    rw [keys_group_by_category, mem_isortLe, mem_categoriesInOrder]
  · intro p hp
    rcases List.mem_map.mp hp with ⟨c, _, rfl⟩
    have := pairwise_isortLe pubDescLe pubDescLe_total pubDescLe_trans
      (items.filter (fun v => v.category = c))
    exact this.imp (fun h => by simpa [pubDescLe] using h)
  · intro a b hab hsub
    rw [keys_group_by_category]
    refine sublist_isortLe catPrioLe a b ?_ (categoriesInOrder items) hsub
    simp only [catPrioLe, decide_eq_true_eq]
    omega

/-- Instance of `category_order_amended` on concrete mixed-category
inputs: the tie-order clause applied to the two unlisted categories
`"Zulu"` (first appearance first) and `"Alpha"` shows they come out in
first-appearance, not alphabetical, order. -/
theorem category_order_amended_witness :
    (("Zulu", [itemZulu]) ∈ group_by_category [itemZulu, itemSonstige]) ∧
    (([itemZulu] : List VideoDigestItem).Pairwise
      (fun a b => b.published_at ≤ a.published_at)) ∧
    ["Zulu", "Alpha"].Sublist
      ((group_by_category [itemZulu, itemAlpha]).map Prod.fst) :=
  ⟨by decide,
   (category_order_amended [itemZulu, itemSonstige]).2.2.1
      ("Zulu", [itemZulu]) (by decide),
   (category_order_amended [itemZulu, itemAlpha]).2.2.2
      "Zulu" "Alpha" (by decide) (by decide)⟩

-- --- C1: statistics vs. the 50-video cap ---------------------------------

/-- C1 counterexample: 51 completed videos of 10 seconds each.  The claim
says the aggregate statistics are computed over the entire original input
(total 510 s); but `generate` rebinds `videos` to the capped list of the
50 newest *before* calling `_calculate_stats`, so the returned
`total_duration_seconds` is 500. -/
theorem digest_stats_counterexample :
    (vs51.map (fun v => v.duration_seconds)).sum = 510 ∧
    digestTotalDuration (generate vs51) = some 500 := by
  constructor
  · decide
  · decide

/-- C1 (amended): truncation affects the statistics as well as rendering —
for an input longer than the cap of 50, `generate` behaves exactly as if
called on only the 50 most recently published videos; in particular
`total_duration_seconds` and the per-category count map range over the
capped 50-video list, not the original input. -/
theorem digest_stats_amended (videos : List ProcessedVideo)
    (h : MAX_VIDEOS_PER_DIGEST < videos.length) :
    generate videos =
      generate ((isortLe pvPubDescLe videos).take MAX_VIDEOS_PER_DIGEST) := by
  have hne : ¬ videos = [] := by
    intro e
    rw [e] at h
    simp [MAX_VIDEOS_PER_DIGEST] at h
  have hlc : ((isortLe pvPubDescLe videos).take MAX_VIDEOS_PER_DIGEST).length =
      MAX_VIDEOS_PER_DIGEST := by
    rw [List.length_take, length_isortLe]
    omega
  have hcne : ¬ (isortLe pvPubDescLe videos).take MAX_VIDEOS_PER_DIGEST = [] := by
    intro e
    rw [e] at hlc
    simp [MAX_VIDEOS_PER_DIGEST] at hlc
  have hnocap : ¬ MAX_VIDEOS_PER_DIGEST <
      ((isortLe pvPubDescLe videos).take MAX_VIDEOS_PER_DIGEST).length := by
    rw [hlc]
    omega
  unfold generate
  rw [if_neg hne, if_neg hcne, if_pos h, if_neg hnocap]

/-- Instance of `digest_stats_amended` at the 51-video input. -/
theorem digest_stats_amended_witness :
    MAX_VIDEOS_PER_DIGEST < vs51.length ∧
    generate vs51 =
      generate ((isortLe pvPubDescLe vs51).take MAX_VIDEOS_PER_DIGEST) :=
  ⟨by decide, digest_stats_amended vs51 (by decide)⟩

-- --- C3: scan admission vs. the Video Filter -----------------------------

/-- C3 counterexample: the scan does not run candidates through
`is_valid_video`.  A regular 90-second video passes the Video Filter
(duration ≥ 60, not live) yet the scan creates no row for it (inline
cutoff is 120 s); an upcoming premiere of 300 s is excluded by the Video
Filter yet the scan creates a `pending` row for it (the broadcast
indicator is never read). -/
theorem scan_filter_counterexample :
    is_valid_video (detailsToRaw det90) = true ∧
    sync_fetch_new_videos [] [(cand90, det90)] = [] ∧
    is_valid_video (detailsToRaw detUp) = false ∧
    (sync_fetch_new_videos [] [(candUp, detUp)]).map (fun r => r.video_id) =
      ["vUp"] ∧
    (sync_fetch_new_videos [] [(candUp, detUp)]).map
      (fun r => r.processing_status) = ["pending"] := by
  refine ⟨by decide, by decide, by decide, by decide, by decide⟩

theorem sync_rows_sound (known : List String)
    (cands : List (SyncCandidate × VideoDetails)) :
    ∀ r ∈ sync_fetch_new_videos known cands,
      r.processing_status = "pending" ∧ r.included_in_digest_id = none ∧
      ¬ r.video_id = "" ∧ r.video_id ∉ known ∧
      ∃ p ∈ cands, p.1.video_id = r.video_id ∧
        120 ≤ p.2.duration_seconds ∧ p.2.hasLiveStreamingDetails = false := by
  induction cands generalizing known with
  | nil => intro r hr; simp [sync_fetch_new_videos] at hr
  | cons cd rest ih =>
      obtain ⟨c, d⟩ := cd
      intro r hr
      by_cases h1 : c.video_id = ""
      · simp only [sync_fetch_new_videos, h1, if_true, if_pos] at hr
        obtain ⟨hs, hi, hne, hk, p, hp, hrest⟩ := ih known r hr
        exact ⟨hs, hi, hne, hk, p, List.mem_cons_of_mem _ hp, hrest⟩
      · by_cases h2 : c.video_id ∈ known
        · simp only [sync_fetch_new_videos, h1, h2, if_false, if_true] at hr
          obtain ⟨hs, hi, hne, hk, p, hp, hrest⟩ := ih known r hr
          exact ⟨hs, hi, hne, hk, p, List.mem_cons_of_mem _ hp, hrest⟩
        · by_cases h3 : d.duration_seconds < 120
          · simp only [sync_fetch_new_videos, h1, h2, h3, if_false, if_true] at hr
            obtain ⟨hs, hi, hne, hk, p, hp, hrest⟩ := ih known r hr
            exact ⟨hs, hi, hne, hk, p, List.mem_cons_of_mem _ hp, hrest⟩
          · by_cases h4 : d.hasLiveStreamingDetails = true
            · simp only [sync_fetch_new_videos, h1, h2, h3, h4, if_false, if_true] at hr
              obtain ⟨hs, hi, hne, hk, p, hp, hrest⟩ := ih known r hr
              exact ⟨hs, hi, hne, hk, p, List.mem_cons_of_mem _ hp, hrest⟩
            · simp only [sync_fetch_new_videos, h1, h2, h3, h4, if_false] at hr
              rcases List.mem_cons.mp hr with rfl | hr'
              · refine ⟨rfl, rfl, h1, h2, (c, d), List.mem_cons_self _ _, rfl, ?_, ?_⟩
                · show 120 ≤ d.duration_seconds
                  omega
                · show d.hasLiveStreamingDetails = false
                  simpa using h4
              · obtain ⟨hs, hi, hne, hk, p, hp, hrest⟩ := ih (c.video_id :: known) r hr'
                refine ⟨hs, hi, hne, ?_, p, List.mem_cons_of_mem _ hp, hrest⟩
                intro hmem
                exact hk (List.mem_cons_of_mem _ hmem)

theorem sync_rows_complete (known : List String)
    (cands : List (SyncCandidate × VideoDetails)) :
    ∀ p ∈ cands, ¬ p.1.video_id = "" → p.1.video_id ∉ known →
      120 ≤ p.2.duration_seconds → p.2.hasLiveStreamingDetails = false →
      ∃ r ∈ sync_fetch_new_videos known cands, r.video_id = p.1.video_id := by
  induction cands generalizing known with
  | nil => intro p hp; simp at hp
  | cons cd rest ih =>
      obtain ⟨c, d⟩ := cd
      intro p hp hne hk hdur hlive
      by_cases h1 : c.video_id = ""
      · simp only [sync_fetch_new_videos, h1, if_true, if_pos]
        rcases List.mem_cons.mp hp with rfl | hp'
        · exact absurd h1 hne
        · exact ih known p hp' hne hk hdur hlive
      · by_cases h2 : c.video_id ∈ known
        · simp only [sync_fetch_new_videos, h1, h2, if_false, if_true]
          rcases List.mem_cons.mp hp with rfl | hp'
          · exact absurd h2 hk
          · exact ih known p hp' hne hk hdur hlive
        · by_cases h3 : d.duration_seconds < 120
          · simp only [sync_fetch_new_videos, h1, h2, h3, if_false, if_true]
            rcases List.mem_cons.mp hp with rfl | hp'
            · dsimp only at hdur
              omega
            · exact ih known p hp' hne hk hdur hlive
          · by_cases h4 : d.hasLiveStreamingDetails = true
            · simp only [sync_fetch_new_videos, h1, h2, h3, h4, if_false, if_true]
              rcases List.mem_cons.mp hp with rfl | hp'
              · rw [hlive] at h4
                exact absurd h4 (by simp)
              · exact ih known p hp' hne hk hdur hlive
            · simp only [sync_fetch_new_videos, h1, h2, h3, h4, if_false]
              rcases List.mem_cons.mp hp with rfl | hp'
              · exact ⟨mkPendingRow c d, List.mem_cons_self _ _, rfl⟩
              · by_cases hid : p.1.video_id = c.video_id
                · exact ⟨mkPendingRow c d, List.mem_cons_self _ _, hid.symm⟩
                · have hk' : p.1.video_id ∉ c.video_id :: known := by
                    intro hmem
                    rcases List.mem_cons.mp hmem with h | h
                    · exact hid h
                    · exact hk h
                  obtain ⟨r, hr, hrid⟩ :=
                    ih (c.video_id :: known) p hp' hne hk' hdur hlive
                  exact ⟨r, List.mem_cons_of_mem _ hr, hrid⟩

theorem check_rows_complete (known : List String) (cs : List SyncCandidate) :
    ∀ c ∈ cs, c.video_id ∉ known →
      ∃ r ∈ check_for_new_videos_rows known cs,
        r.video_id = c.video_id ∧ r.processing_status = "pending" := by
  induction cs generalizing known with
  | nil => intro c hc; simp at hc
  | cons x rest ih =>
      intro c hc hk
      by_cases h : x.video_id ∈ known
      · simp only [check_for_new_videos_rows, h, if_true, if_pos]
        rcases List.mem_cons.mp hc with rfl | hc'
        · exact absurd h hk
        · exact ih known c hc' hk
      · simp only [check_for_new_videos_rows, h, if_false]
        rcases List.mem_cons.mp hc with rfl | hc'
        · exact ⟨mkPendingRow c ⟨0, false, "none"⟩, List.mem_cons_self _ _, rfl, rfl⟩
        · by_cases hid : c.video_id = x.video_id
          · exact ⟨mkPendingRow x ⟨0, false, "none"⟩, List.mem_cons_self _ _,
              hid.symm, rfl⟩
          · have hk' : c.video_id ∉ x.video_id :: known := by
              intro hmem
              rcases List.mem_cons.mp hmem with h' | h'
              · exact hid h'
              · exact hk h'
            obtain ⟨r, hr, hrid, hrs⟩ := ih (x.video_id :: known) c hc' hk'
            exact ⟨r, List.mem_cons_of_mem _ hr, hrid, hrs⟩

/-- C3 (amended): in the combined digest scan each candidate is enriched
with detail and accepted iff its id is nonempty and not already known and
the enriched record shows duration ≥ 120 s and no live-session-details
block — the Video Filter (60-second cutoff, live/upcoming broadcast
indicator) is not consulted; every accepted video is created as a
`pending` row with no digest back-reference.  The daily check task
(`check_for_new_videos`) applies no enrichment and no filter at all: every
candidate whose id is unknown becomes a `pending` row. -/
theorem scan_admission_amended (known : List String)
    (cands : List (SyncCandidate × VideoDetails)) :
    (∀ r ∈ sync_fetch_new_videos known cands,
        r.processing_status = "pending" ∧ r.included_in_digest_id = none ∧
        ¬ r.video_id = "" ∧ r.video_id ∉ known ∧
        ∃ p ∈ cands, p.1.video_id = r.video_id ∧
          120 ≤ p.2.duration_seconds ∧ p.2.hasLiveStreamingDetails = false) ∧
    (∀ p ∈ cands, ¬ p.1.video_id = "" → p.1.video_id ∉ known →
        120 ≤ p.2.duration_seconds → p.2.hasLiveStreamingDetails = false →
        ∃ r ∈ sync_fetch_new_videos known cands, r.video_id = p.1.video_id) ∧
    (∀ c ∈ (cands.map Prod.fst), c.video_id ∉ known →
        ∃ r ∈ check_for_new_videos_rows known (cands.map Prod.fst),
          r.video_id = c.video_id ∧ r.processing_status = "pending") :=
  ⟨sync_rows_sound known cands, sync_rows_complete known cands,
   check_rows_complete known (cands.map Prod.fst)⟩

/-- Instance of `scan_admission_amended`: a 130-second non-live candidate
is accepted by the scan. -/
theorem scan_admission_amended_witness :
    ∃ r ∈ sync_fetch_new_videos [] [(⟨"vOk", "t", 0⟩, ⟨130, false, "none"⟩)],
      r.video_id = "vOk" :=
  (scan_admission_amended [] [(⟨"vOk", "t", 0⟩, ⟨130, false, "none"⟩)]).2.1
    (⟨"vOk", "t", 0⟩, ⟨130, false, "none"⟩) (List.mem_cons_self _ _)
    (by decide) (by decide) (by decide) (by decide)

-- --- C4: idempotent pipeline on completed videos -------------------------

/-- C4: invoking `process_video` on an id whose stored row is already
`completed` returns "skipped" and leaves the table unchanged, for *every*
possible transcript/summarization oracle — i.e. the result does not depend
on the external calls, which are therefore never made (the completed check
runs first). -/
theorem pipeline_idempotent (db : List VideoRow) (vid : String) (row : VideoRow)
    (hfind : findVideo db vid = some row)
    (hdone : row.processing_status = "completed") :
    ∀ (transcriptO : Except String (String × String))
      (summaryO : Except String (String × SummaryJson)),
      process_video db vid transcriptO summaryO = (.skipped, db) := by
  intro transcriptO summaryO
  unfold process_video
  rw [hfind]
  simp [hdone]

/-- Instance of `pipeline_idempotent` on a one-row table. -/
theorem pipeline_idempotent_witness :
    process_video [rowDone] "vd" (.error "no transcript") (.error "no model") =
      (.skipped, [rowDone]) :=
  pipeline_idempotent [rowDone] "vd" rowDone (by decide) (by decide)
    (.error "no transcript") (.error "no model")

-- --- C7: retry exhaustion in the summarizer ------------------------------

/-- C7: if every model call raises, `_call_gemini_with_retry` makes exactly
`MAX_RETRIES = 3` calls, sleeping the increasing delays 1 s and 2 s between
them, and then raises `SummarizationError` with `retry_later = true`,
carrying the last error in its message. -/
theorem retry_exhaustion {α : Type} (call : Nat → Except String α)
    (h : ∀ i, ∃ m, call i = .error m) :
    ∃ m2, call 2 = .error m2 ∧
      call_gemini_with_retry call =
        (.error ⟨"Gemini API failed after 3 attempts: " ++ m2, true⟩, 3, [1, 2]) ∧
      List.Chain' (fun a b => a < b) [1, 2] := by
  obtain ⟨m0, h0⟩ := h 0
  obtain ⟨m1, h1⟩ := h 1
  obtain ⟨m2, h2⟩ := h 2
  refine ⟨m2, h2, ?_, by norm_num [List.chain'_cons]⟩
  show geminiRetryGo call 3 0 0 [] none = _
  rw [show (3 : Nat) = 2 + 1 from rfl, geminiRetryGo, h0]
  norm_num [MAX_RETRIES, RETRY_DELAYS]
  rw [show (2 : Nat) = 1 + 1 from rfl, geminiRetryGo, h1]
  norm_num
  rw [show (1 : Nat) = 0 + 1 from rfl, geminiRetryGo, h2]
  simp [MAX_RETRIES, RETRY_DELAYS, geminiRetryGo]

/-- Instance of `retry_exhaustion` with an always-failing call. -/
theorem retry_exhaustion_witness :
    ∃ m2, (fun _ : Nat => (.error "boom" : Except String Unit)) 2 = .error m2 ∧
      call_gemini_with_retry (fun _ : Nat => (.error "boom" : Except String Unit)) =
        (.error ⟨"Gemini API failed after 3 attempts: " ++ m2, true⟩, 3, [1, 2]) ∧
      List.Chain' (fun a b => a < b) [1, 2] :=
  retry_exhaustion (fun _ => .error "boom") (fun _ => ⟨"boom", rfl⟩)

-- --- C6: transcript resolver error contract ------------------------------

theorem supadata_never_raises_not_available (key : Bool) (resp : SupaResponse)
    (vid : String) (m : String) :
    get_transcript_supadata key resp vid ≠ .error (.transcriptNotAvailable m) := by
  cases key <;> cases resp <;>
    simp [get_transcript_supadata] <;>
      split <;> simp

/-- C6: with the fallback enabled (the resolver's default), `get_transcript`
raises `TranscriptNotAvailable` exactly when the primary YouTube source
yields no transcript and the fallback also yields none — which happens
precisely when the key is unconfigured, the fallback answered 404, the
content list is empty, or a generic error was swallowed; a fallback
rate-limit (429) answer instead propagates as the distinct retryable
`SupadataError`. -/
theorem transcript_error_contract :
    (∀ (vid : String) (yt : Option TranscriptResultM) (key : Bool)
        (resp : SupaResponse),
        (∃ m, get_transcript vid yt key resp true =
            .error (.transcriptNotAvailable m)) ↔
          (yt = none ∧ get_transcript_supadata key resp vid = .ok none)) ∧
    (∀ (vid : String) (key : Bool) (resp : SupaResponse),
        get_transcript_supadata key resp vid = .ok none ↔
          (key = false ∨ resp = .status404 ∨ (∃ l, resp = .okContent [] l) ∨
           ∃ m, resp = .otherError m)) ∧
    (∀ vid : String,
        get_transcript vid none true .status429 true =
          .error (.supadataError "Rate limit exceeded")) ∧
    (∀ m m', TranscriptError.supadataError m ≠ .transcriptNotAvailable m') := by
  refine ⟨?_, ?_, ?_, ?_⟩
  · intro vid yt key resp
    cases yt with
    | some r => simp [get_transcript]
    | none =>
        simp only [get_transcript, if_true, eq_self_iff_true, true_and]
        rcases hs : get_transcript_supadata key resp vid with e | o
        · simp only []
          constructor
          · rintro ⟨m, hm⟩
            injection hm with he
            rw [he] at hs
            exact absurd hs (supadata_never_raises_not_available key resp vid m)
          · intro he
            cases he
        · cases o with
          | none => exact ⟨fun _ => rfl, fun _ => ⟨_, rfl⟩⟩
          | some r => simp
  · intro vid key resp
    cases key <;> cases resp <;>
      simp [get_transcript_supadata]
  · intro vid
    simp [get_transcript, get_transcript_supadata]
  · intro m m' h
    cases h

/-- Instance of `transcript_error_contract`: unconfigured fallback and no
primary transcript raises `TranscriptNotAvailable`; a configured fallback
hitting the rate limit raises `SupadataError`. -/
theorem transcript_error_contract_witness :
    (∃ m, get_transcript "v" none false .status404 true =
        .error (.transcriptNotAvailable m)) ∧
    get_transcript "v" none true .status429 true =
      .error (.supadataError "Rate limit exceeded") :=
  ⟨(transcript_error_contract.1 "v" none false .status404).mpr ⟨rfl, rfl⟩,
   transcript_error_contract.2.2.1 "v"⟩

-- --- C10: chunker termination --------------------------------------------

theorem chunkEnd_lower (t : List Char) (maxLength start : Nat) :
    min (start + maxLength) (start + maxLength * 4 / 5 + 2) ≤
      chunkEnd t maxLength start := by
  unfold chunkEnd
  by_cases h : start + maxLength < t.length
  · simp only [h, if_true]
    rcases hf : rfindSub t ['.', ' '] (start + maxLength * 4 / 5) (start + maxLength) with
      _ | se
    · exact min_le_left _ _
    · by_cases hse : start + maxLength * 4 / 5 < se
      · simp only [hse, if_true]
        calc min (start + maxLength) (start + maxLength * 4 / 5 + 2) ≤
              start + maxLength * 4 / 5 + 2 := min_le_right _ _
          _ ≤ se + 1 := by omega
      · simp only [hse, if_false]
        exact min_le_left _ _
  · simp only [h, if_false]
    exact min_le_left _ _

theorem chunkGo_total (t : List Char) (maxLength overlap : Nat)
    (h : 5 * overlap < 4 * maxLength) :
    ∀ (fuel start : Nat), t.length - start < fuel →
      ∃ cs, chunkGo t maxLength overlap fuel start = some cs ∧
        (start < t.length → cs ≠ []) := by
  have hd : overlap ≤ maxLength * 4 / 5 :=
    (Nat.le_div_iff_mul_le (by norm_num)).mpr (by omega)
  have hov : overlap < maxLength := by omega
  intro fuel
  induction fuel with
  | zero => intro start hf; omega
  | succ fuel ih =>
      intro start hf
      by_cases hstart : start < t.length
      · have hE : start + overlap + 1 ≤ chunkEnd t maxLength start :=
          le_trans (le_min (by omega) (by omega)) (chunkEnd_lower t maxLength start)
        have hf' : t.length - (chunkEnd t maxLength start - overlap) < fuel := by
          omega
        obtain ⟨cs', hcs', _⟩ := ih (chunkEnd t maxLength start - overlap) hf'
        refine ⟨pyStrip (sliceList t start (chunkEnd t maxLength start)) :: cs', ?_, ?_⟩
        · simp only [chunkGo, hstart, if_true, hcs']
        · intro _
          simp
      · exact ⟨[], by simp only [chunkGo, hstart, if_false], fun hc => absurd hc hstart⟩

/-- C10: the transcript chunker terminates and returns a non-empty chunk
list whenever the overlap is below 80% of the chunk size (`5 * overlap <
4 * max_length`, under which every loop iteration advances `start` by at
least `0.8·max_length − overlap > 0`); in particular the summarizer's
chunker (`CHUNK_SIZE = 400000`, `CHUNK_OVERLAP = 500`) always terminates
with a non-empty result. -/
theorem chunker_termination :
    (∀ (t : List Char) (max_length overlap : Nat), 5 * overlap < 4 * max_length →
       ∃ cs, chunk_transcript t max_length overlap = some cs ∧ cs ≠ []) ∧
    (∀ t : List Char,
       ∃ cs, summarization_chunk_transcript t = some cs ∧ cs ≠ []) := by
  constructor
  · intro t max_length overlap h
    unfold chunk_transcript
    by_cases hle : t.length ≤ max_length
    · exact ⟨[t], by simp [hle], by simp⟩
    · simp only [hle, if_false]
      obtain ⟨cs, hcs, hne⟩ := chunkGo_total t max_length overlap h
        (t.length + 1) 0 (by omega)
      exact ⟨cs, hcs, hne (by omega)⟩
  · intro t
    unfold summarization_chunk_transcript
    by_cases hle : t.length ≤ MAX_TRANSCRIPT_CHARS
    · exact ⟨[t], by simp [hle], by simp⟩
    · simp only [hle, if_false]
      obtain ⟨cs, hcs, hne⟩ := chunkGo_total t CHUNK_SIZE CHUNK_OVERLAP
        (by norm_num [CHUNK_SIZE, CHUNK_OVERLAP]) (t.length + 1) 0 (by omega)
      refine ⟨cs, hcs, hne ?_⟩
      simp only [MAX_TRANSCRIPT_CHARS] at hle
      omega

/-- Instance of `chunker_termination` at the resolver's default
parameters. -/
theorem chunker_termination_witness :
    5 * 500 < 4 * 100000 ∧
    ∃ cs, chunk_transcript ['a'] 100000 500 = some cs ∧ cs ≠ [] :=
  ⟨by norm_num, chunker_termination.1 ['a'] 100000 500 (by norm_num)⟩

-- --- Row preservation machinery (for C5 and C8) --------------------------

theorem preservesRows_refl (db : List VideoRow) : PreservesRows db db :=
  ⟨le_refl _, fun _ _ => ⟨rfl, fun _ hd => hd⟩⟩

theorem preservesRows_trans {a b c : List VideoRow}
    (h1 : PreservesRows a b) (h2 : PreservesRows b c) : PreservesRows a c := by
  obtain ⟨l1, p1⟩ := h1
  obtain ⟨l2, p2⟩ := h2
  refine ⟨le_trans l1 l2, fun i h => ?_⟩
  obtain ⟨id1, inc1⟩ := p1 i h
  obtain ⟨id2, inc2⟩ := p2 i (by omega)
  exact ⟨id2.trans id1, fun d hd => inc2 d (inc1 d hd)⟩

theorem map_preservesRows (db : List VideoRow) (f : VideoRow → VideoRow)
    (hfid : ∀ r, (f r).video_id = r.video_id)
    (hfinc : ∀ r d, r.included_in_digest_id = some d →
      (f r).included_in_digest_id = some d) :
    PreservesRows db (db.map f) := by
  refine ⟨by simp, fun i h => ?_⟩
  have hget : (db.map f).get ⟨i, by simpa using h⟩ = f (db.get ⟨i, h⟩) := by
    simp
  rw [hget]
  exact ⟨hfid _, fun d hd => hfinc _ d hd⟩

theorem updateVideo_preservesRows (db : List VideoRow) (vid : String)
    (f : VideoRow → VideoRow)
    (hfid : ∀ r, (f r).video_id = r.video_id)
    (hfinc : ∀ r d, r.included_in_digest_id = some d →
      (f r).included_in_digest_id = some d) :
    PreservesRows db (updateVideo db vid f) := by
  refine map_preservesRows db _ (fun r => ?_) (fun r d hd => ?_)
  · by_cases h : r.video_id = vid
    · simp [h, hfid]
    · simp [h]
  · by_cases h : r.video_id = vid
    · simp only [h, if_true, if_pos]
      exact hfinc r d hd
    · simpa [h] using hd

theorem append_preservesRows (db l : List VideoRow) :
    PreservesRows db (db ++ l) := by
  refine ⟨by simp, fun i h => ?_⟩
  have hget : (db ++ l).get ⟨i, by simp; omega⟩ = db.get ⟨i, h⟩ := by
    rw [List.get_eq_getElem, List.get_eq_getElem, List.getElem_append_left]
  rw [hget]
  exact ⟨rfl, fun _ hd => hd⟩

theorem process_video_preservesRows (db : List VideoRow) (vid : String)
    (transcriptO : Except String (String × String))
    (summaryO : Except String (String × SummaryJson)) :
    PreservesRows db (process_video db vid transcriptO summaryO).2 := by
  unfold process_video
  rcases findVideo db vid with _ | video
  · exact preservesRows_refl db
  · by_cases hc : video.processing_status = "completed"
    · simp only [hc, if_true, if_pos]
      exact preservesRows_refl db
    · simp only [hc, if_false]
      rcases transcriptO with e | ⟨text, src⟩
      · dsimp only
        refine preservesRows_trans
            (updateVideo_preservesRows db vid _ ?_ ?_)
            (updateVideo_preservesRows _ vid _ ?_ ?_) <;>
          intros <;> first
            | rfl
            | assumption
      · rcases summaryO with e | ⟨cat, summ⟩
        · dsimp only
          refine preservesRows_trans
              (updateVideo_preservesRows db vid _ ?_ ?_)
              (preservesRows_trans
                (updateVideo_preservesRows _ vid _ ?_ ?_)
                (updateVideo_preservesRows _ vid _ ?_ ?_)) <;>
            intros <;> first
              | rfl
              | assumption
        · dsimp only
          refine preservesRows_trans
              (updateVideo_preservesRows db vid _ ?_ ?_)
              (preservesRows_trans
                (updateVideo_preservesRows _ vid _ ?_ ?_)
                (updateVideo_preservesRows _ vid _ ?_ ?_)) <;>
            intros <;> first
              | rfl
              | assumption

theorem generate_and_send_digest_preservesRows (s : SysState)
    (call : Nat → SmtpOutcome) :
    PreservesRows s.videos (generate_and_send_digest s call).2.videos := by
  unfold generate_and_send_digest
  by_cases he : eligibleVideos s = []
  · simp only [he, if_true, if_pos]
    exact preservesRows_refl _
  · simp only [he, if_false]
    rcases generate ((eligibleVideos s).map rowToProcessed) with e | dr
    · exact preservesRows_refl _
    · by_cases hs : (send_with_retry call).1.success = true
      · simp only [hs, if_true, if_pos]
        refine map_preservesRows _ _ (fun r => ?_) (fun r d hd => ?_)
        · split
          · rfl
          · rfl
        · split
          · next hcond =>
              rw [hd] at hcond
              simp at hcond
          · exact hd
      · simp only [Bool.not_eq_true] at hs
        simp only [hs, Bool.false_eq_true, if_false]
        exact preservesRows_refl _

theorem applyOp_preservesRows (s : SysState) (op : Op) :
    PreservesRows s.videos (applyOp s op).videos := by
  cases op with
  | addVideo c d => exact append_preservesRows s.videos [mkPendingRow c d]
  | processVideo vid t so => exact process_video_preservesRows s.videos vid t so
  | digestPass call => exact generate_and_send_digest_preservesRows s call

theorem applyOps_preservesRows (s : SysState) (ops : List Op) :
    PreservesRows s.videos (applyOps s ops).videos := by
  induction ops generalizing s with
  | nil => exact preservesRows_refl _
  | cons op rest ih =>
      exact preservesRows_trans (applyOp_preservesRows s op) (ih (applyOp s op))

theorem not_mem_eligible (s : SysState) (r : VideoRow) (d : Nat)
    (h : r.included_in_digest_id = some d) : r ∉ eligibleVideos s := by
  intro hmem
  rw [eligibleVideos, mem_isortLe] at hmem
  have := List.of_mem_filter hmem
  simp only [Bool.and_eq_true, decide_eq_true_eq] at this
  rw [h] at this
  exact absurd this.2 (by simp)

-- --- C5: digest exclusivity ----------------------------------------------

/-- C5: the selection query is scoped to completed videos with no digest
back-reference, and once a video's back-reference has been set it stays
set to the same digest under every further sequence of scanner, pipeline
and digest operations — in particular the video is never again in the
eligible set of any subsequent composition pass. -/
theorem digest_exclusivity :
    (∀ (s2 : SysState), ∀ r ∈ eligibleVideos s2,
       r.processing_status = "completed" ∧ r.included_in_digest_id = none) ∧
    (∀ (s : SysState) (ops : List Op) (i d : Nat) (h : i < s.videos.length),
       (s.videos.get ⟨i, h⟩).included_in_digest_id = some d →
       ∃ h2 : i < (applyOps s ops).videos.length,
         ((applyOps s ops).videos.get ⟨i, h2⟩).video_id =
           (s.videos.get ⟨i, h⟩).video_id ∧
         ((applyOps s ops).videos.get ⟨i, h2⟩).included_in_digest_id = some d ∧
         ((applyOps s ops).videos.get ⟨i, h2⟩) ∉
           eligibleVideos (applyOps s ops)) := by
  constructor
  · intro s2 r hmem
    rw [eligibleVideos, mem_isortLe] at hmem
    have := List.of_mem_filter hmem
    simp only [Bool.and_eq_true, decide_eq_true_eq] at this
    exact this
  · intro s ops i d h href
    obtain ⟨hlen, hp⟩ := applyOps_preservesRows s ops
    obtain ⟨hid, hinc⟩ := hp i h
    refine ⟨by omega, hid, hinc d href, ?_⟩
    exact not_mem_eligible (applyOps s ops) _ d (hinc d href)

/-- Instance of `digest_exclusivity`: in `sysExample` the already-marked
row survives a successful digest pass with its back-reference intact and
outside the new eligible set. -/
theorem digest_exclusivity_witness :
    ∃ h2 : 0 <
        (applyOps sysExample [Op.digestPass (fun _ => SmtpOutcome.ok)]).videos.length,
      ((applyOps sysExample
          [Op.digestPass (fun _ => SmtpOutcome.ok)]).videos.get ⟨0, h2⟩).video_id =
        "vm" ∧
      ((applyOps sysExample
          [Op.digestPass (fun _ => SmtpOutcome.ok)]).videos.get
            ⟨0, h2⟩).included_in_digest_id = some 0 ∧
      ((applyOps sysExample
          [Op.digestPass (fun _ => SmtpOutcome.ok)]).videos.get ⟨0, h2⟩) ∉
        eligibleVideos (applyOps sysExample
          [Op.digestPass (fun _ => SmtpOutcome.ok)]) := by
  obtain ⟨h2, hid, hinc, hnm⟩ :=
    digest_exclusivity.2 sysExample [Op.digestPass (fun _ => SmtpOutcome.ok)] 0 0
      (by decide) (by decide)
  exact ⟨h2, hid.trans rfl, hinc, hnm⟩

-- --- C8: failed send leaves the digest failed and videos eligible --------

theorem send_with_retry_all_transient (call : Nat → SmtpOutcome)
    (h : ∀ i, ∃ m, call i = .transient m) :
    ∃ m2, call 2 = .transient m2 ∧
      send_with_retry call =
        (⟨false, "Failed to send email after 3 attempts: " ++ m2, 3⟩, [2, 5]) := by
  obtain ⟨m0, h0⟩ := h 0
  obtain ⟨m1, h1⟩ := h 1
  obtain ⟨m2, h2⟩ := h 2
  refine ⟨m2, h2, ?_⟩
  show sendRetryGo call 3 0 none [] = _
  rw [show (3 : Nat) = 2 + 1 from rfl, sendRetryGo, h0]
  norm_num [EMAIL_MAX_RETRIES, EMAIL_RETRY_DELAYS]
  rw [show (2 : Nat) = 1 + 1 from rfl, sendRetryGo, h1]
  norm_num
  rw [show (1 : Nat) = 0 + 1 from rfl, sendRetryGo, h2]
  simp [EMAIL_MAX_RETRIES, EMAIL_RETRY_DELAYS, sendRetryGo]

/-- C8: when every SMTP attempt fails with a transport error, the send
reports failure after its 3 bounded attempts; `generate_and_send_digest`
then records the new `DigestHistory` row as `failed` carrying that error
message, leaves the video table untouched (no back-reference is set), and
the eligible set of the next composition cycle is unchanged. -/
theorem failed_send_preserves_eligibility (s : SysState)
    (call : Nat → SmtpOutcome)
    (hne : ¬ eligibleVideos s = [])
    (hgen : ∃ dr, generate ((eligibleVideos s).map rowToProcessed) = .ok dr)
    (hfail : ∀ i, ∃ m, call i = .transient m) :
    ∃ msg,
      (send_with_retry call).1 = ⟨false, msg, 3⟩ ∧
      generate_and_send_digest s call =
        (.failedSend msg,
         { videos := s.videos
           digests := s.digests ++ [⟨s.digests.length, "failed", some msg⟩] }) ∧
      eligibleVideos (generate_and_send_digest s call).2 = eligibleVideos s := by
  obtain ⟨m2, _, hsend⟩ := send_with_retry_all_transient call hfail
  obtain ⟨dr, hdr⟩ := hgen
  refine ⟨"Failed to send email after 3 attempts: " ++ m2, by rw [hsend], ?_, ?_⟩
  · unfold generate_and_send_digest
    rw [if_neg hne]
    simp [hdr, hsend]
  · have heq : generate_and_send_digest s call =
        (.failedSend ("Failed to send email after 3 attempts: " ++ m2),
         { videos := s.videos
           digests := s.digests ++
             [⟨s.digests.length, "failed",
               some ("Failed to send email after 3 attempts: " ++ m2)⟩] }) := by
      unfold generate_and_send_digest
      rw [if_neg hne]
      simp [hdr, hsend]
    rw [heq]
    rfl

/-- Instance of `failed_send_preserves_eligibility` on a one-video state
with an always-failing SMTP oracle. -/
theorem failed_send_preserves_eligibility_witness :
    ∃ msg,
      (send_with_retry (fun _ => SmtpOutcome.transient "boom")).1 =
        ⟨false, msg, 3⟩ ∧
      generate_and_send_digest sysOne (fun _ => SmtpOutcome.transient "boom") =
        (.failedSend msg,
         { videos := sysOne.videos
           digests := sysOne.digests ++ [⟨sysOne.digests.length, "failed", some msg⟩] }) ∧
      eligibleVideos
          (generate_and_send_digest sysOne
            (fun _ => SmtpOutcome.transient "boom")).2 =
        eligibleVideos sysOne :=
  failed_send_preserves_eligibility sysOne (fun _ => SmtpOutcome.transient "boom")
    (by decide) ⟨_, rfl⟩ (fun _ => ⟨"boom", rfl⟩)

end YTDigest
